import Mathlib

/-!
Shallow embedding of the Tinymovr DFU flashing pipeline
(src/studio/Python/tinymovr/dfu.py) and proofs about it.

Modelling conventions:
* The device is a bundle of pure response functions (`Device`): what
  `read_flash_32` returns at each address, what checksum `commit` reports
  for a given address and scratch contents, the status code of
  `erase_all`, and whether the device accepts the seeded (extra-argument)
  signature of `commit` / `erase_all` (when it does not, the Python code
  sees a `TypeError` and retries unseeded; the rejected attempt is
  recorded as an explicit trace event).
* Every bus-visible action of the host code is recorded in an ordered
  `Event` trace and every console print in a `Msg` trace, so sequencing
  and framing properties can be stated.
* `sys.exit(1)` in `upload_bin` is modelled by the terminal outcome
  `UploadOutcome.checksumExit` (a non-zero process exit, which aborts the
  rest of `spawn` as well); an uncaught `FileNotFoundError` in `spawn` by
  `SpawnOutcome.fileNotFoundError`.
* A `.bin` file is its byte sequence (`List Nat`, one entry per byte);
  Python's `bin_file.read(16)` loop is the 16-byte chunking `binChunks`.
* `create_device` / `init_router` come from modules outside this
  repository's sources; they are modelled as single trace events.  That
  `create_device` performs request/response bus traffic against the
  addressed device is visible in dfu.py itself: the recovery loop calls
  it repeatedly and catches the transport-level `ResponseError` it can
  raise (lines 228-234).
* The inter-write `time.sleep(1e-5)` delay and progress-bar updates are
  pure side channels and are not modelled.
-/

namespace Dfu

/-- Words per chunk (`BIN_CHUNK_SIZE` in dfu.py). -/
def BIN_CHUNK_SIZE : Nat := 4

/-- Base address of the firmware image (`FLASH_START_ADDR` in dfu.py). -/
def FLASH_START_ADDR : Nat := 0x00001000

/-- Base address of the NVM config region (`NVM_START_ADDR` in dfu.py). -/
def NVM_START_ADDR : Nat := 0x0001E000

/-- Size in bytes of the NVM config region (`NVM_SIZE` in dfu.py). -/
def NVM_SIZE : Nat := 8 * 1024

/-- Pure response behaviour of one device on the bus. -/
structure Device where
  /-- Value returned by `device.read_flash_32(addr)`. -/
  readFlash : Nat → Nat
  /-- Checksum returned by `device.commit(addr, ...)` right after the four
  scratch registers were loaded with the given words. -/
  commitChecksum : Nat → List Nat → Nat
  /-- Status code returned by `device.erase_all(...)`; 0 is success. -/
  eraseStatus : Nat
  /-- Whether the seeded signatures `commit(addr, seed)` /
  `erase_all(seed)` are accepted; if not, the Python caller gets a
  `TypeError` and falls back to the unseeded form. -/
  supportsSeeded : Bool

/-- One bus-visible action of the host code, in program order. -/
inductive Event where
  | initRouter
  | createDevice
  | readFlash (addr : Nat)
  | writeScratch (idx val : Nat)
  | commitSeededRejected (addr : Nat)
  | commit (addr : Nat) (seeded : Bool)
  | eraseSeededRejected
  | eraseAll (seeded : Bool)
  | reset
  | destroyRouter
  deriving DecidableEq

/-- One console message printed by the host code (progress bars are a
side channel and are not modelled). -/
inductive Msg where
  | backingUp
  | nvmEmpty
  | nvmBackedUp
  | erasing
  | eraseError
  | eraseDone
  | checksumMismatch (addr : Nat)
  | nvmRestoring
  | nvmRestored
  | firmwareMatches
  | firmwareDiffers
  | resetting
  deriving DecidableEq

/-- Little-endian value of a byte list; `int.from_bytes(bs, byteorder="little")`.
Note that the empty list yields 0, exactly as in Python. -/
def wordFromBytesLE : List Nat → Nat
  | [] => 0
  | b :: rest => b + 256 * wordFromBytesLE rest

/-- The word `int.from_bytes(chunk[i * 4 : (i + 1) * 4], byteorder="little")`
extracted everywhere in dfu.py; an out-of-range slice is empty and gives 0,
as in Python. -/
def sliceWord (chunk : List Nat) (i : Nat) : Nat :=
  wordFromBytesLE ((chunk.drop (i * 4)).take 4)

/-- `calculate_local_checksum` from dfu.py: sum of the chunk's 4 words,
masked to 32 bits. -/
def calculate_local_checksum (chunk : List Nat) : Nat :=
  (((List.range BIN_CHUNK_SIZE).map (fun i => sliceWord chunk i)).sum) % 2 ^ 32

/-- The 4 words of a chunk, in scratch-register order. -/
def chunkWords (chunk : List Nat) : List Nat :=
  (List.range BIN_CHUNK_SIZE).map (fun i => sliceWord chunk i)

/-- The `try: device.commit(addr, device.hash_uint32) except TypeError:
device.commit(addr)` pattern: returns the device checksum and the trace of
the exchange (including the rejected seeded attempt, if any). -/
def commitCall (d : Device) (addr : Nat) (words : List Nat) : Nat × List Event :=
  if d.supportsSeeded then
    (d.commitChecksum addr words, [Event.commit addr true])
  else
    (d.commitChecksum addr words, [Event.commitSeededRejected addr, Event.commit addr false])

/-- The `try: device.erase_all(device.hash_uint32) except TypeError:
device.erase_all()` pattern from `upload_bin`. -/
def eraseAllCall (d : Device) : Nat × List Event :=
  if d.supportsSeeded then
    (d.eraseStatus, [Event.eraseAll true])
  else
    (d.eraseStatus, [Event.eraseSeededRejected, Event.eraseAll false])

/-- Fuel-driven worker for `binChunks` (structural recursion so that the
kernel can evaluate it). -/
def binChunksAux : Nat → List Nat → List (List Nat)
  | 0, _ => []
  | _, [] => []
  | fuel + 1, bytes => bytes.take 16 :: binChunksAux fuel (bytes.drop 16)

/-- The sequence of 16-byte chunks produced by the
`chunk = bin_file.read(BIN_CHUNK_SIZE * 4)` / `while chunk:` loops of
`compare_bin_w_device` and `upload_bin`; the final chunk is shorter when
the file length is not a multiple of 16. -/
def binChunks (bytes : List Nat) : List (List Nat) :=
  binChunksAux bytes.length bytes

/-- The `for i in range(BIN_CHUNK_SIZE)` comparison loop body of
`compare_bin_w_device`: reads the device word for each index, stops at the
first mismatch.  Returns the comparison verdict and the reads performed. -/
def compareWords (d : Device) (chunk : List Nat) (addr : Nat) : List Nat → Bool × List Event
  | [] => (true, [])
  | i :: rest =>
    if sliceWord chunk i = d.readFlash (addr + i * 4) then
      ((compareWords d chunk addr rest).1,
        Event.readFlash (addr + i * 4) :: (compareWords d chunk addr rest).2)
    else
      (false, [Event.readFlash (addr + i * 4)])

/-- The chunk loop of `compare_bin_w_device`, advancing the flash address
by 16 per chunk. -/
def compareChunksLoop (d : Device) : List (List Nat) → Nat → Bool × List Event
  | [], _ => (true, [])
  | chunk :: rest, addr =>
    if (compareWords d chunk addr (List.range BIN_CHUNK_SIZE)).1 then
      ((compareChunksLoop d rest (addr + 16)).1,
        (compareWords d chunk addr (List.range BIN_CHUNK_SIZE)).2
          ++ (compareChunksLoop d rest (addr + 16)).2)
    else
      (false, (compareWords d chunk addr (List.range BIN_CHUNK_SIZE)).2)

/-- `compare_bin_w_device` from dfu.py: word-by-word comparison of the
file against device flash starting at `FLASH_START_ADDR`; returns the
boolean verdict and the bus reads performed. -/
def compare_bin_w_device (d : Device) (bytes : List Nat) : Bool × List Event :=
  compareChunksLoop d (binChunks bytes) FLASH_START_ADDR

/-- Little-endian `value.to_bytes(4, byteorder="little")`. -/
def toBytesLE4 (v : Nat) : List Nat :=
  [v % 256, v / 256 % 256, v / 65536 % 256, v / 16777216 % 256]

/-- The byte string assembled by `read_nvm_region`: `NVM_SIZE // 4` words
read from the NVM region, each appended in little-endian order. -/
def nvmBytes (d : Device) : List Nat :=
  (List.range (NVM_SIZE / 4)).flatMap (fun i => toBytesLE4 (d.readFlash (NVM_START_ADDR + i * 4)))

/-- The bus reads issued by `read_nvm_region`. -/
def readNvmTrace (d : Device) : List Event :=
  (List.range (NVM_SIZE / 4)).map (fun i => Event.readFlash (NVM_START_ADDR + i * 4))

/-- The messages printed by `read_nvm_region`. -/
def readNvmMsgs (d : Device) : List Msg :=
  Msg.backingUp ::
    (if (nvmBytes d).all (fun b => b = 255) then [Msg.nvmEmpty] else [Msg.nvmBackedUp])

/-- `read_nvm_region` from dfu.py: the backed-up NVM region, or `none`
when every byte read is `0xFF`. -/
def read_nvm_region (d : Device) : Option (List Nat) :=
  if (nvmBytes d).all (fun b => b = 255) then none else some (nvmBytes d)

/-- The four `device.write_scratch_32(i, value)` calls that stage one
chunk before a commit. -/
def scratchLoadTrace (chunk : List Nat) : List Event :=
  (List.range BIN_CHUNK_SIZE).map (fun i => Event.writeScratch i (sliceWord chunk i))

/-- The `for chunk_idx in range(num_chunks)` loop of `write_nvm_region`:
`count` chunks starting at `addr`, taking successive 16-byte slices of
`rest`; all-`0xFF` chunks are skipped, others are staged and committed.
The checksum returned by `commit` is bound and discarded by the source,
so only the trace comes back.  (The source slices
`data[offset : offset + chunk_size]` at `offset = chunk_idx * 16`; here
`rest` is the data with `offset` bytes already dropped, which yields the
identical slice.) -/
def writeNvmChunks (d : Device) : Nat → List Nat → Nat → List Event
  | 0, _, _ => []
  | count + 1, rest, addr =>
    if (rest.take 16).all (fun b => b = 255) then
      writeNvmChunks d count (rest.drop 16) (addr + 16)
    else
      scratchLoadTrace (rest.take 16)
        ++ (commitCall d addr (chunkWords (rest.take 16))).2
        ++ writeNvmChunks d count (rest.drop 16) (addr + 16)

/-- `write_nvm_region` from dfu.py (bus trace): a no-op for `None`,
otherwise `NVM_SIZE // 16` chunk slots written back at `NVM_START_ADDR`. -/
def write_nvm_region (d : Device) : Option (List Nat) → List Event
  | none => []
  | some data => writeNvmChunks d (NVM_SIZE / (BIN_CHUNK_SIZE * 4)) data NVM_START_ADDR

/-- The messages printed by `write_nvm_region`. -/
def writeNvmMsgs : Option (List Nat) → List Msg
  | none => []
  | some _ => [Msg.nvmRestoring, Msg.nvmRestored]

/-- Result of the programming loop of `upload_bin`. -/
inductive ProgResult where
  | done
  | mismatch (addr : Nat)
  deriving DecidableEq

/-- The flashing loop of `upload_bin`: for each chunk, stage the 4 words
in scratch, commit at the current flash address, and compare the device
checksum with the local one; at the first disagreement the whole process
exits (`sys.exit(1)`), so no later chunk is touched. -/
def programChunks (d : Device) : List (List Nat) → Nat → ProgResult × List Event
  | [], _ => (ProgResult.done, [])
  | chunk :: rest, addr =>
    if (commitCall d addr (chunkWords chunk)).1 ≠ calculate_local_checksum chunk then
      (ProgResult.mismatch addr,
        scratchLoadTrace chunk ++ (commitCall d addr (chunkWords chunk)).2)
    else
      ((programChunks d rest (addr + 16)).1,
        scratchLoadTrace chunk ++ (commitCall d addr (chunkWords chunk)).2
          ++ (programChunks d rest (addr + 16)).2)

/-- How `upload_bin` ends. -/
inductive UploadOutcome where
  /-- All chunks programmed and the NVM restore ran; normal return. -/
  | completed
  /-- `erase_all` returned non-zero: message printed and `upload_bin`
  returns normally (plain `return`, not an exit). -/
  | eraseFailed
  /-- Device checksum disagreed with the local checksum at `addr`:
  the process terminates via `sys.exit(1)`. -/
  | checksumExit (addr : Nat)
  deriving DecidableEq

/-- Everything observable about one `upload_bin` run. -/
structure UploadRun where
  outcome : UploadOutcome
  msgs : List Msg
  events : List Event
  deriving DecidableEq

/-- `upload_bin` from dfu.py: NVM backup, erase, chunked program with
checksum verification, NVM restore. -/
def upload_bin (d : Device) (bytes : List Nat) : UploadRun :=
  if (eraseAllCall d).1 ≠ 0 then
    ⟨UploadOutcome.eraseFailed,
      readNvmMsgs d ++ [Msg.erasing, Msg.eraseError],
      readNvmTrace d ++ (eraseAllCall d).2⟩
  else
    match (programChunks d (binChunks bytes) FLASH_START_ADDR).1 with
    | ProgResult.mismatch a =>
      ⟨UploadOutcome.checksumExit a,
        readNvmMsgs d ++ [Msg.erasing, Msg.eraseDone, Msg.checksumMismatch a],
        readNvmTrace d ++ (eraseAllCall d).2
          ++ (programChunks d (binChunks bytes) FLASH_START_ADDR).2⟩
    | ProgResult.done =>
      ⟨UploadOutcome.completed,
        readNvmMsgs d ++ [Msg.erasing, Msg.eraseDone] ++ writeNvmMsgs (read_nvm_region d),
        readNvmTrace d ++ (eraseAllCall d).2
          ++ (programChunks d (binChunks bytes) FLASH_START_ADDR).2
          ++ write_nvm_region d (read_nvm_region d)⟩

/-- The `--bin` command-line argument of `spawn`: absent, naming a
nonexistent file, or naming an existing file with the given bytes. -/
inductive BinArg where
  | noPath
  | missingFile
  | file (bytes : List Nat)

/-- How the non-recovery path of `spawn` ends. -/
inductive SpawnOutcome where
  /-- `FileNotFoundError` raised (missing `--bin` or nonexistent file). -/
  | fileNotFoundError
  /-- Device contents already match the file; flash skipped. -/
  | skippedFlash
  /-- `upload_bin` ran with the given outcome. -/
  | flashed (u : UploadOutcome)
  deriving DecidableEq

/-- Everything observable about one `spawn` run. -/
structure SpawnRun where
  outcome : SpawnOutcome
  msgs : List Msg
  events : List Event
  deriving DecidableEq

/-- The non-recovery path of `spawn` from dfu.py (lines 235-259), after
argument parsing: the bus router is initialised and the device handle is
created first; only then is the `--bin` path validated; then either the
pre-flight compare short-circuits the flash, or `upload_bin` runs,
followed by the verifying compare (whose result is discarded) and the
optional reset.  `destroy_router` is reached only when no exception and
no process exit occurred. -/
def spawn (d : Device) (arg : BinArg) (force noReset : Bool) : SpawnRun :=
  match arg with
  | BinArg.noPath =>
    ⟨SpawnOutcome.fileNotFoundError, [], [Event.initRouter, Event.createDevice]⟩
  | BinArg.missingFile =>
    ⟨SpawnOutcome.fileNotFoundError, [], [Event.initRouter, Event.createDevice]⟩
  | BinArg.file bytes =>
    if force = false ∧ (compare_bin_w_device d bytes).1 = true then
      ⟨SpawnOutcome.skippedFlash, [Msg.firmwareMatches],
        [Event.initRouter, Event.createDevice]
          ++ (compare_bin_w_device d bytes).2 ++ [Event.destroyRouter]⟩
    else
      match (upload_bin d bytes).outcome with
      | UploadOutcome.checksumExit a =>
        ⟨SpawnOutcome.flashed (UploadOutcome.checksumExit a),
          (if force = false then [Msg.firmwareDiffers] else []) ++ (upload_bin d bytes).msgs,
          [Event.initRouter, Event.createDevice]
            ++ (if force = false then (compare_bin_w_device d bytes).2 else [])
            ++ (upload_bin d bytes).events⟩
      | u =>
        ⟨SpawnOutcome.flashed u,
          (if force = false then [Msg.firmwareDiffers] else []) ++ (upload_bin d bytes).msgs
            ++ (if noReset = false then [Msg.resetting] else []),
          [Event.initRouter, Event.createDevice]
            ++ (if force = false then (compare_bin_w_device d bytes).2 else [])
            ++ (upload_bin d bytes).events
            ++ (compare_bin_w_device d bytes).2
            ++ (if noReset = false then [Event.reset] else [])
            ++ [Event.destroyRouter]⟩

/-- Events that mutate device flash state (scratch staging, commits,
erases), including the rejected seeded attempts of those operations. -/
def isFlashMutation : Event → Bool
  | Event.writeScratch _ _ => true
  | Event.commit _ _ => true
  | Event.commitSeededRejected _ => true
  | Event.eraseAll _ => true
  | Event.eraseSeededRejected => true
  | _ => false

/-- A seeded `commit`/`erase_all` attempt that the device rejected with a
`TypeError` (the exception-driven capability probe). -/
def isSeededFallback : Event → Bool
  | Event.commitSeededRejected _ => true
  | Event.eraseSeededRejected => true
  | _ => false

/-- A completed `commit` or `erase_all` exchange. -/
def isCommitOrErase : Event → Bool
  | Event.commit _ _ => true
  | Event.eraseAll _ => true
  | _ => false

/-- Formalization of the claim that the seeded-versus-unseeded form of
`commit`/`erase_all` is negotiated at most once per session (an explicit
one-time capability probe) rather than by per-call exception-driven
control flow: in any `upload_bin` session trace, at most one seeded
attempt is ever rejected. -/
def seededFormNegotiatedOnce : Prop :=
  ∀ (d : Device) (bytes : List Nat),
    ((upload_bin d bytes).events.countP isSeededFallback) ≤ 1

/-- A device that reports checksum 1 for every commit (disagreeing with
the local checksum of an all-zero chunk); its flash reads as fully
erased (`0xFF`), and erase succeeds. -/
def dBadCommit : Device :=
  { readFlash := fun _ => 4294967295
    commitChecksum := fun _ _ => 1
    eraseStatus := 0
    supportsSeeded := true }

/-- A 16-byte all-zero image file. -/
def bin16 : List Nat := List.replicate 16 0

/-- A 32-byte all-zero image file (two chunks). -/
def bin32 : List Nat := List.replicate 32 0

/-- A device whose `erase_all` fails with status 1; flash reads as 0,
commit responses are honest sums. -/
def dEraseFail : Device :=
  { readFlash := fun _ => 0
    commitChecksum := fun _ ws => ws.sum % 2 ^ 32
    eraseStatus := 1
    supportsSeeded := true }

/-- A device whose NVM region reads as all-zero (so the backup is
meaningful) and whose commit checksum response is always 5 — disagreeing
with the local checksum 0 of every all-zero chunk. -/
def dRestoreFaulty : Device :=
  { readFlash := fun _ => 0
    commitChecksum := fun _ _ => 5
    eraseStatus := 0
    supportsSeeded := true }

/-- An arbitrary healthy device (used where the device is irrelevant). -/
def dIdle : Device :=
  { readFlash := fun _ => 0
    commitChecksum := fun _ ws => ws.sum % 2 ^ 32
    eraseStatus := 0
    supportsSeeded := true }

/-- A device whose flash word at `FLASH_START_ADDR` is 2 and is 9
everywhere else; commit responses are honest sums. -/
def dPad : Device :=
  { readFlash := fun a => if a = FLASH_START_ADDR then 2 else 9
    commitChecksum := fun _ ws => ws.sum % 2 ^ 32
    eraseStatus := 0
    supportsSeeded := true }

/-- A 4-byte image file: a single 32-bit word of value 2. -/
def padBytes : List Nat := [2, 0, 0, 0]

/-- A device that rejects the seeded `commit`/`erase_all` signatures
(raising `TypeError` on every seeded attempt); flash reads fully erased,
commit responses honest, erase succeeds. -/
def dLegacy : Device :=
  { readFlash := fun _ => 4294967295
    commitChecksum := fun _ ws => ws.sum % 2 ^ 32
    eraseStatus := 0
    supportsSeeded := false }

/-- A device whose program flash reads as all-zero and whose NVM region
reads fully erased; honest commit responses. -/
def dV1 : Device :=
  { readFlash := fun a => if a < NVM_START_ADDR then 0 else 4294967295
    commitChecksum := fun _ ws => ws.sum % 2 ^ 32
    eraseStatus := 0
    supportsSeeded := true }

/-- Like `dV1` except the flash word at `FLASH_START_ADDR` reads 7, so a
post-flash verify of an all-zero image disagrees at the first word. -/
def dV2 : Device :=
  { readFlash := fun a =>
      if a = FLASH_START_ADDR then 7 else if a < NVM_START_ADDR then 0 else 4294967295
    commitChecksum := fun _ ws => ws.sum % 2 ^ 32
    eraseStatus := 0
    supportsSeeded := true }

/-- A device whose flash word at `FLASH_START_ADDR` is 3 and 9 everywhere
else. -/
def dCmp : Device :=
  { readFlash := fun a => if a = FLASH_START_ADDR then 3 else 9
    commitChecksum := fun _ ws => ws.sum % 2 ^ 32
    eraseStatus := 0
    supportsSeeded := true }

/-- A 4-byte image file: a single 32-bit word of value 3. -/
def cmpBytes : List Nat := [3, 0, 0, 0]

/-- A fully erased device: every flash word reads `0xFFFFFFFF`. -/
def dBlank : Device :=
  { readFlash := fun _ => 4294967295
    commitChecksum := fun _ ws => ws.sum % 2 ^ 32
    eraseStatus := 0
    supportsSeeded := true }

/-- A 16-byte all-`0xFF` image file, matching `dBlank`'s flash. -/
def bin16FF : List Nat := List.replicate 16 255

/-! ### Basic facts about the device-call wrappers -/

theorem eraseAllCall_fst (d : Device) : (eraseAllCall d).1 = d.eraseStatus := by
  unfold eraseAllCall; split <;> rfl

theorem commitCall_fst (d : Device) (addr : Nat) (ws : List Nat) :
    (commitCall d addr ws).1 = d.commitChecksum addr ws := by
  unfold commitCall; split <;> rfl

theorem commitCall_snd (d : Device) (addr : Nat) (ws : List Nat) :
    (commitCall d addr ws).2 =
      if d.supportsSeeded then [Event.commit addr true]
      else [Event.commitSeededRejected addr, Event.commit addr false] := by
  unfold commitCall; split <;> simp_all

theorem eraseAllCall_snd (d : Device) :
    (eraseAllCall d).2 =
      if d.supportsSeeded then [Event.eraseAll true]
      else [Event.eraseSeededRejected, Event.eraseAll false] := by
  unfold eraseAllCall; split <;> simp_all

theorem mem_commitCall_snd {d : Device} {addr : Nat} {ws : List Nat} {e : Event}
    (h : e ∈ (commitCall d addr ws).2) :
    e = Event.commitSeededRejected addr ∨ e = Event.commit addr d.supportsSeeded := by
  rw [commitCall_snd] at h
  rcases hs : d.supportsSeeded <;> simp [hs] at h <;> tauto

theorem mem_eraseAllCall_snd {d : Device} {e : Event}
    (h : e ∈ (eraseAllCall d).2) :
    e = Event.eraseSeededRejected ∨ e = Event.eraseAll d.supportsSeeded := by
  rw [eraseAllCall_snd] at h
  rcases hs : d.supportsSeeded <;> simp [hs] at h <;> tauto

theorem mem_scratchLoadTrace {chunk : List Nat} {e : Event}
    (h : e ∈ scratchLoadTrace chunk) :
    ∃ i, i < BIN_CHUNK_SIZE ∧ e = Event.writeScratch i (sliceWord chunk i) := by
  unfold scratchLoadTrace at h
  rcases List.mem_map.mp h with ⟨i, hi, rfl⟩
  exact ⟨i, List.mem_range.mp hi, rfl⟩

theorem mem_readNvmTrace {d : Device} {e : Event} (h : e ∈ readNvmTrace d) :
    ∃ a, NVM_START_ADDR ≤ a ∧ e = Event.readFlash a := by
  unfold readNvmTrace at h
  rcases List.mem_map.mp h with ⟨i, _, rfl⟩
  exact ⟨NVM_START_ADDR + i * 4, Nat.le_add_right _ _, rfl⟩

/-! ### Chunking -/

theorem binChunksAux_fuel_irrel :
    ∀ fuel fuel' (bytes : List Nat), bytes.length ≤ fuel → bytes.length ≤ fuel' →
      binChunksAux fuel bytes = binChunksAux fuel' bytes := by
  intro fuel
  induction fuel with
  | zero =>
    intro fuel' bytes h _
    have : bytes = [] := List.length_eq_zero.mp (Nat.le_zero.mp h)
    subst this
    cases fuel' <;> rfl
  | succ n ih =>
    intro fuel' bytes h h'
    cases bytes with
    | nil => cases fuel' <;> rfl
    | cons a l =>
      cases fuel' with
      | zero => simp at h'
      | succ m =>
        show (a :: l).take 16 :: binChunksAux n ((a :: l).drop 16)
            = (a :: l).take 16 :: binChunksAux m ((a :: l).drop 16)
        have hn : ((a :: l).drop 16).length ≤ n := by
          simp [List.length_drop] at *; omega
        have hm : ((a :: l).drop 16).length ≤ m := by
          simp [List.length_drop] at *; omega
        rw [ih m _ hn hm]

theorem binChunks_nil : binChunks [] = [] := rfl

theorem binChunks_cons {bytes : List Nat} (h : bytes ≠ []) :
    binChunks bytes = bytes.take 16 :: binChunks (bytes.drop 16) := by
  cases bytes with
  | nil => exact absurd rfl h
  | cons a l =>
    show (a :: l).take 16 :: binChunksAux l.length ((a :: l).drop 16)
        = (a :: l).take 16 :: binChunksAux ((a :: l).drop 16).length ((a :: l).drop 16)
    have hn : ((a :: l).drop 16).length ≤ l.length := by
      simp [List.length_drop]
    rw [binChunksAux_fuel_irrel l.length _ _ hn le_rfl]

/-! ### Branch characterizations of `upload_bin` and `spawn` -/

theorem upload_bin_eraseFailed (d : Device) (bytes : List Nat)
    (h : d.eraseStatus ≠ 0) :
    upload_bin d bytes =
      ⟨UploadOutcome.eraseFailed,
        readNvmMsgs d ++ [Msg.erasing, Msg.eraseError],
        readNvmTrace d ++ (eraseAllCall d).2⟩ := by
  unfold upload_bin
  rw [eraseAllCall_fst, if_pos h]

theorem upload_bin_mismatch {d : Device} {bytes : List Nat} {a : Nat}
    (hE : d.eraseStatus = 0)
    (hp : (programChunks d (binChunks bytes) FLASH_START_ADDR).1 = ProgResult.mismatch a) :
    upload_bin d bytes =
      ⟨UploadOutcome.checksumExit a,
        readNvmMsgs d ++ [Msg.erasing, Msg.eraseDone, Msg.checksumMismatch a],
        readNvmTrace d ++ (eraseAllCall d).2
          ++ (programChunks d (binChunks bytes) FLASH_START_ADDR).2⟩ := by
  unfold upload_bin
  rw [eraseAllCall_fst, hE, if_neg (by simp), hp]

theorem upload_bin_completed (d : Device) (bytes : List Nat)
    (hE : d.eraseStatus = 0)
    (hp : (programChunks d (binChunks bytes) FLASH_START_ADDR).1 = ProgResult.done) :
    upload_bin d bytes =
      ⟨UploadOutcome.completed,
        readNvmMsgs d ++ [Msg.erasing, Msg.eraseDone] ++ writeNvmMsgs (read_nvm_region d),
        readNvmTrace d ++ (eraseAllCall d).2
          ++ (programChunks d (binChunks bytes) FLASH_START_ADDR).2
          ++ write_nvm_region d (read_nvm_region d)⟩ := by
  unfold upload_bin
  rw [eraseAllCall_fst, hE, if_neg (by simp), hp]

theorem spawn_skip (d : Device) (bytes : List Nat) (noReset : Bool)
    (hc : (compare_bin_w_device d bytes).1 = true) :
    spawn d (BinArg.file bytes) false noReset =
      ⟨SpawnOutcome.skippedFlash, [Msg.firmwareMatches],
        [Event.initRouter, Event.createDevice]
          ++ (compare_bin_w_device d bytes).2 ++ [Event.destroyRouter]⟩ := by
  simp [spawn, hc]

theorem spawn_flash_exit {d : Device} {bytes : List Nat} {a : Nat}
    {force noReset : Bool}
    (hcond : ¬(force = false ∧ (compare_bin_w_device d bytes).1 = true))
    (hu : (upload_bin d bytes).outcome = UploadOutcome.checksumExit a) :
    spawn d (BinArg.file bytes) force noReset =
      ⟨SpawnOutcome.flashed (UploadOutcome.checksumExit a),
        (if force = false then [Msg.firmwareDiffers] else []) ++ (upload_bin d bytes).msgs,
        [Event.initRouter, Event.createDevice]
          ++ (if force = false then (compare_bin_w_device d bytes).2 else [])
          ++ (upload_bin d bytes).events⟩ := by
  simp only [spawn]
  rw [if_neg hcond, hu]


theorem spawn_flash_completed (d : Device) (bytes : List Nat)
    (force noReset : Bool)
    (hcond : ¬(force = false ∧ (compare_bin_w_device d bytes).1 = true))
    (hu : (upload_bin d bytes).outcome = UploadOutcome.completed) :
    spawn d (BinArg.file bytes) force noReset =
      ⟨SpawnOutcome.flashed UploadOutcome.completed,
        (if force = false then [Msg.firmwareDiffers] else []) ++ (upload_bin d bytes).msgs
          ++ (if noReset = false then [Msg.resetting] else []),
        [Event.initRouter, Event.createDevice]
          ++ (if force = false then (compare_bin_w_device d bytes).2 else [])
          ++ (upload_bin d bytes).events
          ++ (compare_bin_w_device d bytes).2
          ++ (if noReset = false then [Event.reset] else [])
          ++ [Event.destroyRouter]⟩ := by
  simp only [spawn]
  rw [if_neg hcond, hu]


theorem spawn_flash_eraseFailed (d : Device) (bytes : List Nat)
    (force noReset : Bool)
    (hcond : ¬(force = false ∧ (compare_bin_w_device d bytes).1 = true))
    (hu : (upload_bin d bytes).outcome = UploadOutcome.eraseFailed) :
    spawn d (BinArg.file bytes) force noReset =
      ⟨SpawnOutcome.flashed UploadOutcome.eraseFailed,
        (if force = false then [Msg.firmwareDiffers] else []) ++ (upload_bin d bytes).msgs
          ++ (if noReset = false then [Msg.resetting] else []),
        [Event.initRouter, Event.createDevice]
          ++ (if force = false then (compare_bin_w_device d bytes).2 else [])
          ++ (upload_bin d bytes).events
          ++ (compare_bin_w_device d bytes).2
          ++ (if noReset = false then [Event.reset] else [])
          ++ [Event.destroyRouter]⟩ := by
  simp only [spawn]
  rw [if_neg hcond, hu]


/-! ### Symbolic facts about the NVM backup for specific device shapes -/

theorem nvmBytes_all_ff {d : Device}
    (h : ∀ a, NVM_START_ADDR ≤ a → d.readFlash a = 4294967295) :
    (nvmBytes d).all (fun b => b = 255) = true := by
  rw [List.all_eq_true]
  intro b hb
  unfold nvmBytes at hb
  rcases List.mem_flatMap.mp hb with ⟨i, _, hbi⟩
  rw [h _ (Nat.le_add_right _ _)] at hbi
  have hff : toBytesLE4 4294967295 = [255, 255, 255, 255] := rfl
  rw [hff] at hbi
  simp at hbi
  simp [hbi]

theorem read_nvm_region_none {d : Device}
    (h : (nvmBytes d).all (fun b => b = 255) = true) :
    read_nvm_region d = none := by
  unfold read_nvm_region
  rw [if_pos h]

theorem read_nvm_region_some {d : Device}
    (h : (nvmBytes d).all (fun b => b = 255) = false) :
    read_nvm_region d = some (nvmBytes d) := by
  unfold read_nvm_region
  rw [if_neg (by simp [h])]

theorem readNvmMsgs_ff {d : Device}
    (h : (nvmBytes d).all (fun b => b = 255) = true) :
    readNvmMsgs d = [Msg.backingUp, Msg.nvmEmpty] := by
  unfold readNvmMsgs
  rw [if_pos h]

theorem readNvmMsgs_not_ff {d : Device}
    (h : (nvmBytes d).all (fun b => b = 255) = false) :
    readNvmMsgs d = [Msg.backingUp, Msg.nvmBackedUp] := by
  unfold readNvmMsgs
  rw [if_neg (by simp [h])]

/-! ### The comparator only reads -/

theorem compareWords_events_read {d : Device} {chunk : List Nat} {addr : Nat} :
    ∀ is, ∀ e ∈ (compareWords d chunk addr is).2, ∃ a, e = Event.readFlash a := by
  intro is
  induction is with
  | nil => intro e he; simp [compareWords] at he
  | cons i rest ih =>
    intro e he
    unfold compareWords at he
    by_cases hm : sliceWord chunk i = d.readFlash (addr + i * 4)
    · rw [if_pos hm] at he
      rcases List.mem_cons.mp he with h | h
      · exact ⟨_, h⟩
      · exact ih e h
    · rw [if_neg hm] at he
      simp at he
      exact ⟨_, he⟩

theorem compareChunksLoop_events_read {d : Device} :
    ∀ cs addr, ∀ e ∈ (compareChunksLoop d cs addr).2, ∃ a, e = Event.readFlash a := by
  intro cs
  induction cs with
  | nil => intro addr e he; simp [compareChunksLoop] at he
  | cons chunk rest ih =>
    intro addr e he
    unfold compareChunksLoop at he
    by_cases hok : (compareWords d chunk addr (List.range BIN_CHUNK_SIZE)).1 = true
    · rw [if_pos hok] at he
      rcases List.mem_append.mp he with h | h
      · exact compareWords_events_read _ e h
      · exact ih _ e h
    · rw [if_neg hok] at he
      exact compareWords_events_read _ e he

theorem compare_events_read {d : Device} {bytes : List Nat} :
    ∀ e ∈ (compare_bin_w_device d bytes).2, ∃ a, e = Event.readFlash a :=
  fun e he => compareChunksLoop_events_read _ _ e he

/-! ### The programming loop stops at the first checksum mismatch -/

theorem programChunks_mismatch_commits_le {d : Device} :
    ∀ cs addr a, (programChunks d cs addr).1 = ProgResult.mismatch a →
      addr ≤ a ∧
        ∀ a2 s, Event.commit a2 s ∈ (programChunks d cs addr).2 → a2 ≤ a := by
  intro cs
  induction cs with
  | nil => intro addr a h; simp [programChunks] at h
  | cons chunk rest ih =>
    intro addr a h
    unfold programChunks at h ⊢
    by_cases hm : (commitCall d addr (chunkWords chunk)).1 ≠ calculate_local_checksum chunk
    · rw [if_pos hm] at h ⊢
      have ha : addr = a := by
        simpa using h
      subst ha
      refine ⟨le_rfl, ?_⟩
      intro a2 s hmem
      rcases List.mem_append.mp hmem with h1 | h1
      · rcases mem_scratchLoadTrace h1 with ⟨i, _, hi⟩
        exact absurd hi (by simp)
      · rcases mem_commitCall_snd h1 with h2 | h2
        · exact absurd h2 (by simp)
        · rw [Event.commit.injEq] at h2
          exact le_of_eq h2.1
    · rw [if_neg hm] at h ⊢
      rcases ih (addr + 16) a h with ⟨hle, hcom⟩
      refine ⟨by omega, ?_⟩
      intro a2 s hmem
      rcases List.mem_append.mp hmem with h1 | h1
      · rcases List.mem_append.mp h1 with h2 | h2
        · rcases mem_scratchLoadTrace h2 with ⟨i, _, hi⟩
          exact absurd hi (by simp)
        · rcases mem_commitCall_snd h2 with h3 | h3
          · exact absurd h3 (by simp)
          · rw [Event.commit.injEq] at h3
            omega
      · exact hcom a2 s h1

/-! ### Small shared facts about messages -/

theorem nvmRestoring_not_mem_readNvmMsgs (d : Device) :
    Msg.nvmRestoring ∉ readNvmMsgs d := by
  unfold readNvmMsgs
  split <;> simp

/-! ### Claim C1 -/

/-- C1: during programming, when the device-reported checksum of a
chunk's commit differs from the locally computed sum (the programming
loop yields `mismatch a` at flash address `a`), `upload_bin` terminates
the process with a non-zero status (`checksumExit a`, the model of
`sys.exit(1)`); every commit issued lies at or before the failing chunk
(no further chunk is written), the trace ends with the programming-loop
events (no restore events follow), and the NVM restore step is never
started (its message is absent). -/
theorem c1_program_checksum_mismatch_aborts (d : Device) (bytes : List Nat) (a : Nat)
    (hE : d.eraseStatus = 0)
    (hm : (programChunks d (binChunks bytes) FLASH_START_ADDR).1 = ProgResult.mismatch a) :
    (upload_bin d bytes).outcome = UploadOutcome.checksumExit a ∧
    (upload_bin d bytes).events
      = readNvmTrace d ++ (eraseAllCall d).2
          ++ (programChunks d (binChunks bytes) FLASH_START_ADDR).2 ∧
    (∀ a2 s, Event.commit a2 s ∈ (programChunks d (binChunks bytes) FLASH_START_ADDR).2
        → a2 ≤ a) ∧
    Msg.nvmRestoring ∉ (upload_bin d bytes).msgs := by
  have hu := upload_bin_mismatch hE hm
  rw [hu]
  refine ⟨rfl, rfl, (programChunks_mismatch_commits_le _ _ _ hm).2, ?_⟩
  intro hmem
  rcases List.mem_append.mp hmem with h | h
  · exact nvmRestoring_not_mem_readNvmMsgs d h
  · simp at h

/-- Witness for C1 at a concrete device (checksum responses always 1)
and a concrete 16-byte image whose local chunk checksum is 0. -/
theorem c1_witness :
    (upload_bin dBadCommit bin16).outcome = UploadOutcome.checksumExit FLASH_START_ADDR ∧
    (upload_bin dBadCommit bin16).events
      = readNvmTrace dBadCommit ++ (eraseAllCall dBadCommit).2
          ++ (programChunks dBadCommit (binChunks bin16) FLASH_START_ADDR).2 ∧
    (∀ a2 s,
        Event.commit a2 s ∈ (programChunks dBadCommit (binChunks bin16) FLASH_START_ADDR).2
          → a2 ≤ FLASH_START_ADDR) ∧
    Msg.nvmRestoring ∉ (upload_bin dBadCommit bin16).msgs :=
  c1_program_checksum_mismatch_aborts dBadCommit bin16 FLASH_START_ADDR rfl (by decide)

/-! ### Claim C2 -/

/-- C2 counterexample: with a device whose `erase_all` returns status 1,
the claim "no subsequent step (NVM restore, post-flash verify, device
reset) is performed after the failed erase / the pipeline terminates
immediately" is false on the code: `upload_bin` merely prints and
returns, and `spawn` carries on — its outcome is a normally finished run,
the verifying compare reads program flash (address `FLASH_START_ADDR`
is only read by the verify step here, since the pre-flight compare is
skipped under `--force` and the backup only reads the NVM region), and
the device reset is performed. -/
theorem c2_counterexample :
    (spawn dEraseFail (BinArg.file bin16) true false).outcome
        = SpawnOutcome.flashed UploadOutcome.eraseFailed ∧
    Event.reset ∈ (spawn dEraseFail (BinArg.file bin16) true false).events ∧
    Msg.resetting ∈ (spawn dEraseFail (BinArg.file bin16) true false).msgs ∧
    Event.readFlash FLASH_START_ADDR
        ∈ (spawn dEraseFail (BinArg.file bin16) true false).events := by
  have hup := upload_bin_eraseFailed dEraseFail bin16 (by decide)
  have huo : (upload_bin dEraseFail bin16).outcome = UploadOutcome.eraseFailed := by
    rw [hup]
  have hsp := spawn_flash_eraseFailed dEraseFail bin16 true false (by simp) huo
  rw [hsp]
  refine ⟨rfl, by simp, by simp, ?_⟩
  have hv : Event.readFlash FLASH_START_ADDR ∈ (compare_bin_w_device dEraseFail bin16).2 := by
    decide
  simp [hv]

/-- C2 (amended): if `erase_all` returns a non-zero status, `upload_bin`
aborts before programming — no chunk is staged or committed (the only
flash-mutating events in its trace are the erase exchange itself) and the
NVM restore is not started — but the process is NOT terminated:
`upload_bin` returns normally and `spawn` still performs the post-flash
verify compare and (unless `--no-reset`) the device reset. -/
theorem c2_erase_failure_returns_without_write (d : Device) (bytes : List Nat)
    (noReset : Bool) (hE : d.eraseStatus ≠ 0) :
    (upload_bin d bytes).outcome = UploadOutcome.eraseFailed ∧
    (upload_bin d bytes).events = readNvmTrace d ++ (eraseAllCall d).2 ∧
    (∀ e ∈ (upload_bin d bytes).events, isFlashMutation e = true →
        e = Event.eraseSeededRejected ∨ e = Event.eraseAll d.supportsSeeded) ∧
    Msg.nvmRestoring ∉ (upload_bin d bytes).msgs ∧
    (spawn d (BinArg.file bytes) true noReset).outcome
        = SpawnOutcome.flashed UploadOutcome.eraseFailed ∧
    (spawn d (BinArg.file bytes) true noReset).events
      = [Event.initRouter, Event.createDevice] ++ (upload_bin d bytes).events
          ++ (compare_bin_w_device d bytes).2
          ++ (if noReset = false then [Event.reset] else []) ++ [Event.destroyRouter] := by
  have hup := upload_bin_eraseFailed d bytes hE
  have huo : (upload_bin d bytes).outcome = UploadOutcome.eraseFailed := by rw [hup]
  have hsp := spawn_flash_eraseFailed d bytes true noReset (by simp) huo
  refine ⟨huo, by rw [hup], ?_, ?_, by rw [hsp], ?_⟩
  · intro e he hmut
    rw [hup] at he
    rcases List.mem_append.mp he with h | h
    · rcases mem_readNvmTrace h with ⟨a2, _, rfl⟩
      simp [isFlashMutation] at hmut
    · exact mem_eraseAllCall_snd h
  · rw [hup]
    intro hmem
    rcases List.mem_append.mp hmem with h | h
    · exact nvmRestoring_not_mem_readNvmMsgs d h
    · simp at h
  · rw [hsp]
    simp

/-- Witness for C2's amended theorem at the concrete erase-failing
device. -/
theorem c2_witness :
    (upload_bin dEraseFail bin16).outcome = UploadOutcome.eraseFailed ∧
    (upload_bin dEraseFail bin16).events
      = readNvmTrace dEraseFail ++ (eraseAllCall dEraseFail).2 ∧
    (∀ e ∈ (upload_bin dEraseFail bin16).events, isFlashMutation e = true →
        e = Event.eraseSeededRejected ∨ e = Event.eraseAll dEraseFail.supportsSeeded) ∧
    Msg.nvmRestoring ∉ (upload_bin dEraseFail bin16).msgs ∧
    (spawn dEraseFail (BinArg.file bin16) true true).outcome
        = SpawnOutcome.flashed UploadOutcome.eraseFailed ∧
    (spawn dEraseFail (BinArg.file bin16) true true).events
      = [Event.initRouter, Event.createDevice] ++ (upload_bin dEraseFail bin16).events
          ++ (compare_bin_w_device dEraseFail bin16).2
          ++ (if true = false then [Event.reset] else []) ++ [Event.destroyRouter] :=
  c2_erase_failure_returns_without_write dEraseFail bin16 true (by decide)

/-! ### Claim C3 -/

theorem writeNvmChunks_succ (d : Device) (count : Nat) (rest : List Nat) (addr : Nat) :
    writeNvmChunks d (count + 1) rest addr =
      if (rest.take 16).all (fun b => b = 255) then
        writeNvmChunks d count (rest.drop 16) (addr + 16)
      else
        scratchLoadTrace (rest.take 16)
          ++ (commitCall d addr (chunkWords (rest.take 16))).2
          ++ writeNvmChunks d count (rest.drop 16) (addr + 16) := rfl

theorem writeNvmChunks_seeded_only {d1 d2 : Device}
    (hs : d1.supportsSeeded = d2.supportsSeeded) :
    ∀ count rest addr, writeNvmChunks d1 count rest addr = writeNvmChunks d2 count rest addr := by
  intro count
  induction count with
  | zero => intro rest addr; rfl
  | succ n ih =>
    intro rest addr
    rw [writeNvmChunks_succ, writeNvmChunks_succ]
    by_cases hff : (rest.take 16).all (fun b => b = 255) = true
    · rw [if_pos hff, if_pos hff, ih]
    · rw [if_neg hff, if_neg hff, ih, commitCall_snd, commitCall_snd, hs]

set_option maxRecDepth 40000 in
/-- C3 counterexample: with a device whose commit responses (constant 5)
disagree with the locally computed checksum (0) of every restored chunk,
the claim that the returned checksum "is verified against the locally
computed sum and a disagreement is treated as a fatal ChecksumMismatch"
during NVM restore is false on the code: the restore issues a commit for
the first (non-`0xFF`) backed-up chunk, the run still completes normally
(`completed`, not a checksum exit), and the restore-finished message is
printed. -/
theorem c3_counterexample :
    (upload_bin dRestoreFaulty []).outcome = UploadOutcome.completed ∧
    Msg.nvmRestored ∈ (upload_bin dRestoreFaulty []).msgs ∧
    Event.commit NVM_START_ADDR true ∈ (upload_bin dRestoreFaulty []).events ∧
    dRestoreFaulty.commitChecksum NVM_START_ADDR
        (chunkWords ((nvmBytes dRestoreFaulty).take 16))
      ≠ calculate_local_checksum ((nvmBytes dRestoreFaulty).take 16) := by
  have hff : (nvmBytes dRestoreFaulty).all (fun b => b = 255) = false := by decide
  have hsome := read_nvm_region_some hff
  have hp : (programChunks dRestoreFaulty (binChunks []) FLASH_START_ADDR).1
      = ProgResult.done := rfl
  have hu := upload_bin_completed dRestoreFaulty [] rfl hp
  rw [hu]
  refine ⟨rfl, ?_, ?_, by decide⟩
  · rw [hsome]
    simp [writeNvmMsgs]
  · rw [hsome]
    have h0 : write_nvm_region dRestoreFaulty (some (nvmBytes dRestoreFaulty))
        = writeNvmChunks dRestoreFaulty 512 (nvmBytes dRestoreFaulty) NVM_START_ADDR := rfl
    have h16 : ((nvmBytes dRestoreFaulty).take 16).all (fun b => b = 255) = false := by
      decide
    have h512 : (512 : Nat) = 511 + 1 := rfl
    have hc : (commitCall dRestoreFaulty NVM_START_ADDR
        (chunkWords ((nvmBytes dRestoreFaulty).take 16))).2
        = [Event.commit NVM_START_ADDR true] := rfl
    rw [h0, h512, writeNvmChunks_succ, if_neg (by simp [h16]), hc]
    simp

/-- C3 (amended): during NVM restore, each non-`0xFF` chunk is staged and
committed, but the checksum returned by `commit` is bound and discarded —
never compared with the locally computed sum.  Hence the restore trace is
entirely independent of the device's checksum responses (any two devices
agreeing only on the seeded-signature capability restore identically),
and an upload whose erase and programming succeeded always ends
`completed`, with no failure path out of the restore. -/
theorem c3_restore_discards_device_checksum (d1 d2 : Device)
    (hs : d1.supportsSeeded = d2.supportsSeeded) (dataOpt : Option (List Nat))
    (d : Device) (bytes : List Nat) (hE : d.eraseStatus = 0)
    (hp : (programChunks d (binChunks bytes) FLASH_START_ADDR).1 = ProgResult.done) :
    write_nvm_region d1 dataOpt = write_nvm_region d2 dataOpt ∧
    (upload_bin d bytes).outcome = UploadOutcome.completed := by
  constructor
  · cases dataOpt with
    | none => rfl
    | some data => exact writeNvmChunks_seeded_only hs _ _ _
  · rw [upload_bin_completed d bytes hE hp]

/-- Witness for C3's amended theorem: a dishonest-checksum device and an
honest one restore the same backup identically, and a trivial successful
upload completes. -/
theorem c3_witness :
    write_nvm_region dRestoreFaulty (some [1, 2, 3])
        = write_nvm_region dIdle (some [1, 2, 3]) ∧
    (upload_bin dIdle []).outcome = UploadOutcome.completed :=
  c3_restore_discards_device_checksum dRestoreFaulty dIdle rfl (some [1, 2, 3])
    dIdle [] rfl rfl

/-! ### Claim C4 -/

/-- C4 counterexample: when the `--bin` path names a nonexistent file,
the `FileNotFoundError` is indeed raised, but only AFTER the bus router
is initialised and the device handle is created — `create_device` is
request/response traffic addressed to the device (dfu.py's own recovery
loop catches the transport `ResponseError` it raises), so the claim that
no bus request is issued before the pre-flight error is false on the
code. -/
theorem c4_counterexample :
    (spawn dIdle BinArg.missingFile false false).outcome
        = SpawnOutcome.fileNotFoundError ∧
    Event.createDevice ∈ (spawn dIdle BinArg.missingFile false false).events := by
  constructor
  · rfl
  · simp [spawn]

/-- C4 (amended): a missing `--bin` argument or a nonexistent image file
raises the fatal `FileNotFoundError` before any flash read, erase,
scratch write or commit is issued — but after the bus router is
initialised and the device handle is created, so device interaction does
precede the image validation. -/
theorem c4_image_check_after_device_setup (d : Device) (force noReset : Bool)
    (arg : BinArg) (h : arg = BinArg.noPath ∨ arg = BinArg.missingFile) :
    (spawn d arg force noReset).outcome = SpawnOutcome.fileNotFoundError ∧
    (spawn d arg force noReset).events = [Event.initRouter, Event.createDevice] ∧
    (spawn d arg force noReset).msgs = [] := by
  rcases h with rfl | rfl <;> exact ⟨rfl, rfl, rfl⟩

/-- Witness for C4's amended theorem with the missing `--bin` argument. -/
theorem c4_witness :
    (spawn dIdle BinArg.noPath false false).outcome = SpawnOutcome.fileNotFoundError ∧
    (spawn dIdle BinArg.noPath false false).events
        = [Event.initRouter, Event.createDevice] ∧
    (spawn dIdle BinArg.noPath false false).msgs = [] :=
  c4_image_check_after_device_setup dIdle false false BinArg.noPath (Or.inl rfl)

/-! ### Claim C5 -/

theorem compareWords_true_trace {d : Device} {chunk : List Nat} {addr : Nat} :
    ∀ is, (compareWords d chunk addr is).1 = true →
      (compareWords d chunk addr is).2 = is.map (fun i => Event.readFlash (addr + i * 4)) := by
  intro is
  induction is with
  | nil => intro _; rfl
  | cons i rest ih =>
    intro h
    unfold compareWords at h ⊢
    by_cases hm : sliceWord chunk i = d.readFlash (addr + i * 4)
    · rw [if_pos hm] at h ⊢
      show Event.readFlash (addr + i * 4) :: (compareWords d chunk addr rest).2 = _
      simp only [List.map_cons]
      exact congrArg (List.cons (Event.readFlash (addr + i * 4))) (ih h)
    · rw [if_neg hm] at h
      simp at h

/-- C5 counterexample: a 4-byte image (a single word, value 2) against a
device whose flash is 2 at `FLASH_START_ADDR` and 9 elsewhere.
Every 32-bit word actually present in the file equals the corresponding
device word, yet `compare` returns `false` because it also compares the
fabricated (empty-slice, value 0) words of the padded final chunk and
reads device flash beyond the file's end; and `program` stages the
fabricated zero word at scratch index 3, i.e. writes beyond the file's
end. -/
theorem c5_counterexample :
    (compare_bin_w_device dPad padBytes).1 = false ∧
    Event.readFlash (FLASH_START_ADDR + 4) ∈ (compare_bin_w_device dPad padBytes).2 ∧
    wordFromBytesLE padBytes = dPad.readFlash FLASH_START_ADDR ∧
    Event.writeScratch 3 0 ∈ (upload_bin dPad padBytes).events := by
  refine ⟨by decide, by decide, by decide, ?_⟩
  have hp : (programChunks dPad (binChunks padBytes) FLASH_START_ADDR).1
      = ProgResult.done := by decide
  have hu := upload_bin_completed dPad padBytes rfl hp
  rw [hu]
  have hps : Event.writeScratch 3 0
      ∈ (programChunks dPad (binChunks padBytes) FLASH_START_ADDR).2 := by decide
  simp [hps]

/-- C5 (amended): a trailing remainder shorter than 16 bytes is NOT
simply treated as end-of-stream; it is zero-padded to a full 4-word
chunk.  For a nonempty file of at most 16 bytes: the programming loop
always stages all four scratch words and issues one commit (the trace is
exactly the four scratch writes followed by the commit exchange); every
word index whose slice lies wholly beyond the file's bytes is staged as
the fabricated value 0; and whenever the comparator accepts the chunk it
has read all four device words, i.e. it also read addresses beyond the
file's end.  Truncation happens only at 16-byte chunk granularity. -/
theorem c5_short_tail_zero_padded (d : Device) (bytes : List Nat) (addr : Nat)
    (h1 : bytes ≠ []) (h2 : bytes.length ≤ 16) :
    (programChunks d (binChunks bytes) addr).2
        = scratchLoadTrace bytes ++ (commitCall d addr (chunkWords bytes)).2 ∧
    scratchLoadTrace bytes
        = [Event.writeScratch 0 (sliceWord bytes 0), Event.writeScratch 1 (sliceWord bytes 1),
           Event.writeScratch 2 (sliceWord bytes 2), Event.writeScratch 3 (sliceWord bytes 3)] ∧
    (∀ i, bytes.length ≤ 4 * i → sliceWord bytes i = 0) ∧
    ((compareChunksLoop d (binChunks bytes) addr).1 = true →
      (compareChunksLoop d (binChunks bytes) addr).2
        = [Event.readFlash addr, Event.readFlash (addr + 4),
           Event.readFlash (addr + 8), Event.readFlash (addr + 12)]) := by
  have htake : bytes.take 16 = bytes := List.take_of_length_le h2
  have hdrop : bytes.drop 16 = [] := List.drop_eq_nil_of_le h2
  have hchunks : binChunks bytes = [bytes] := by
    rw [binChunks_cons h1, htake, hdrop, binChunks_nil]
  refine ⟨?_, ?_, ?_, ?_⟩
  · rw [hchunks]
    by_cases hm : (commitCall d addr (chunkWords bytes)).1 ≠ calculate_local_checksum bytes
    · unfold programChunks
      rw [if_pos hm]
    · unfold programChunks
      rw [if_neg hm]
      show _ ++ _ ++ (programChunks d [] (addr + 16)).2 = _
      simp [programChunks]
  · rfl
  · intro i hi
    unfold sliceWord
    rw [List.drop_eq_nil_of_le (by omega)]
    rfl
  · rw [hchunks]
    intro hres
    by_cases hw : (compareWords d bytes addr (List.range BIN_CHUNK_SIZE)).1 = true
    · unfold compareChunksLoop
      rw [if_pos hw]
      show (compareWords d bytes addr (List.range BIN_CHUNK_SIZE)).2
          ++ (compareChunksLoop d [] (addr + 16)).2 = _
      rw [compareWords_true_trace _ hw]
      simp [compareChunksLoop, BIN_CHUNK_SIZE, List.range_succ]
    · unfold compareChunksLoop at hres
      rw [if_neg hw] at hres
      simp at hres

/-- Witness for C5's amended theorem at the concrete 4-byte image. -/
theorem c5_witness :
    (programChunks dPad (binChunks padBytes) FLASH_START_ADDR).2
        = scratchLoadTrace padBytes
            ++ (commitCall dPad FLASH_START_ADDR (chunkWords padBytes)).2 ∧
    scratchLoadTrace padBytes
        = [Event.writeScratch 0 (sliceWord padBytes 0),
           Event.writeScratch 1 (sliceWord padBytes 1),
           Event.writeScratch 2 (sliceWord padBytes 2),
           Event.writeScratch 3 (sliceWord padBytes 3)] ∧
    (∀ i, padBytes.length ≤ 4 * i → sliceWord padBytes i = 0) ∧
    ((compareChunksLoop dPad (binChunks padBytes) FLASH_START_ADDR).1 = true →
      (compareChunksLoop dPad (binChunks padBytes) FLASH_START_ADDR).2
        = [Event.readFlash FLASH_START_ADDR, Event.readFlash (FLASH_START_ADDR + 4),
           Event.readFlash (FLASH_START_ADDR + 8), Event.readFlash (FLASH_START_ADDR + 12)]) :=
  c5_short_tail_zero_padded dPad padBytes FLASH_START_ADDR (by decide) (by decide)

/-! ### Claim C6 -/

theorem scratchLoadTrace_countP_zero (chunk : List Nat) (p : Event → Bool)
    (hp : ∀ i v, p (Event.writeScratch i v) = false) :
    (scratchLoadTrace chunk).countP p = 0 := by
  apply List.countP_eq_zero.mpr
  intro e he
  rcases mem_scratchLoadTrace he with ⟨i, _, rfl⟩
  simp [hp]

theorem readNvmTrace_countP_zero (d : Device) (p : Event → Bool)
    (hp : ∀ a, p (Event.readFlash a) = false) :
    (readNvmTrace d).countP p = 0 := by
  apply List.countP_eq_zero.mpr
  intro e he
  rcases mem_readNvmTrace he with ⟨a, _, rfl⟩
  simp [hp]

theorem commitCall_countP_fallback (d : Device) (addr : Nat) (ws : List Nat) :
    ((commitCall d addr ws).2).countP isSeededFallback
      = if d.supportsSeeded then 0 else 1 := by
  rw [commitCall_snd]
  rcases hs : d.supportsSeeded <;> simp [hs, isSeededFallback]

theorem commitCall_countP_commitOrErase (d : Device) (addr : Nat) (ws : List Nat) :
    ((commitCall d addr ws).2).countP isCommitOrErase = 1 := by
  rw [commitCall_snd]
  rcases hs : d.supportsSeeded <;> simp [hs, isCommitOrErase]

theorem eraseAllCall_countP_fallback (d : Device) :
    ((eraseAllCall d).2).countP isSeededFallback
      = if d.supportsSeeded then 0 else 1 := by
  rw [eraseAllCall_snd]
  rcases hs : d.supportsSeeded <;> simp [hs, isSeededFallback]

theorem eraseAllCall_countP_commitOrErase (d : Device) :
    ((eraseAllCall d).2).countP isCommitOrErase = 1 := by
  rw [eraseAllCall_snd]
  rcases hs : d.supportsSeeded <;> simp [hs, isCommitOrErase]

theorem programChunks_countP (d : Device) :
    ∀ cs addr,
      ((programChunks d cs addr).2).countP isSeededFallback
        = if d.supportsSeeded then 0
          else ((programChunks d cs addr).2).countP isCommitOrErase := by
  intro cs
  induction cs with
  | nil =>
    intro addr
    rcases hs : d.supportsSeeded <;> simp [programChunks, hs]
  | cons chunk rest ih =>
    intro addr
    unfold programChunks
    by_cases hm : (commitCall d addr (chunkWords chunk)).1 ≠ calculate_local_checksum chunk
    · rw [if_pos hm]
      show ((scratchLoadTrace chunk ++ (commitCall d addr (chunkWords chunk)).2).countP _) = _
      rw [List.countP_append, List.countP_append,
        scratchLoadTrace_countP_zero _ _ (by intro i v; rfl),
        scratchLoadTrace_countP_zero _ _ (by intro i v; rfl),
        commitCall_countP_fallback, commitCall_countP_commitOrErase]
      rcases hs : d.supportsSeeded <;> simp [hs]
    · rw [if_neg hm]
      show ((scratchLoadTrace chunk ++ (commitCall d addr (chunkWords chunk)).2
          ++ (programChunks d rest (addr + 16)).2).countP _) = _
      rw [List.countP_append, List.countP_append, List.countP_append, List.countP_append,
        scratchLoadTrace_countP_zero _ _ (by intro i v; rfl),
        scratchLoadTrace_countP_zero _ _ (by intro i v; rfl),
        commitCall_countP_fallback, commitCall_countP_commitOrErase, ih]
      rcases hs : d.supportsSeeded <;> simp [hs]

theorem writeNvmChunks_countP (d : Device) :
    ∀ count rest addr,
      ((writeNvmChunks d count rest addr).countP isSeededFallback)
        = if d.supportsSeeded then 0
          else ((writeNvmChunks d count rest addr).countP isCommitOrErase) := by
  intro count
  induction count with
  | zero =>
    intro rest addr
    rcases hs : d.supportsSeeded <;> simp [writeNvmChunks, hs]
  | succ n ih =>
    intro rest addr
    rw [writeNvmChunks_succ]
    by_cases hff : (rest.take 16).all (fun b => b = 255) = true
    · rw [if_pos hff]
      exact ih _ _
    · rw [if_neg hff]
      rw [List.countP_append, List.countP_append, List.countP_append, List.countP_append,
        scratchLoadTrace_countP_zero _ _ (by intro i v; rfl),
        scratchLoadTrace_countP_zero _ _ (by intro i v; rfl),
        commitCall_countP_fallback, commitCall_countP_commitOrErase, ih]
      rcases hs : d.supportsSeeded <;> simp [hs]

theorem write_nvm_region_countP (d : Device) (dataOpt : Option (List Nat)) :
    ((write_nvm_region d dataOpt).countP isSeededFallback)
      = if d.supportsSeeded then 0
        else ((write_nvm_region d dataOpt).countP isCommitOrErase) := by
  cases dataOpt with
  | none => rcases hs : d.supportsSeeded <;> simp [write_nvm_region, hs]
  | some data => exact writeNvmChunks_countP d _ _ _

/-- C6 counterexample: the seeded-versus-unseeded form is NOT negotiated
once per session.  On a device that rejects the seeded signatures, a
single `upload_bin` session over a two-chunk image performs three
separate exception-driven fallbacks (one at `erase_all` and one at each
`commit`), so the session trace contains 3 rejected seeded attempts,
refuting the at-most-one-probe property. -/
theorem c6_counterexample : ¬ seededFormNegotiatedOnce := by
  intro h
  have hle := h dLegacy bin32
  have hff : (nvmBytes dLegacy).all (fun b => b = 255) = true :=
    nvmBytes_all_ff (fun a _ => rfl)
  have hp : (programChunks dLegacy (binChunks bin32) FLASH_START_ADDR).1
      = ProgResult.done := by decide
  have hu := upload_bin_completed dLegacy bin32 rfl hp
  have hcount : ((upload_bin dLegacy bin32).events.countP isSeededFallback) = 3 := by
    rw [hu]
    show ((readNvmTrace dLegacy ++ (eraseAllCall dLegacy).2
        ++ (programChunks dLegacy (binChunks bin32) FLASH_START_ADDR).2
        ++ write_nvm_region dLegacy (read_nvm_region dLegacy)).countP isSeededFallback) = 3
    rw [read_nvm_region_none hff]
    rw [List.countP_append, List.countP_append, List.countP_append,
      readNvmTrace_countP_zero _ _ (by intro a; rfl),
      eraseAllCall_countP_fallback]
    have hprog : ((programChunks dLegacy (binChunks bin32) FLASH_START_ADDR).2).countP
        isSeededFallback = 2 := by decide
    rw [hprog]
    rfl
  rw [hcount] at hle
  omega

/-- C6 (amended): the seeded form is chosen by exception-driven control
flow at EVERY call site, not once per session: in any `upload_bin`
session trace, a device that accepts the seeded signatures triggers no
fallback, while a device that rejects them triggers exactly one rejected
seeded attempt per completed `commit`/`erase_all` exchange — the probing
is repeated for every call rather than negotiated once. -/
theorem c6_fallback_at_every_call (d : Device) (bytes : List Nat) :
    ((upload_bin d bytes).events.countP isSeededFallback)
      = if d.supportsSeeded then 0
        else ((upload_bin d bytes).events.countP isCommitOrErase) := by
  by_cases hE : d.eraseStatus = 0
  · rcases hp : (programChunks d (binChunks bytes) FLASH_START_ADDR).1 with _ | a
    · rw [upload_bin_completed d bytes hE hp]
      show ((readNvmTrace d ++ (eraseAllCall d).2
          ++ (programChunks d (binChunks bytes) FLASH_START_ADDR).2
          ++ write_nvm_region d (read_nvm_region d)).countP isSeededFallback) = _
      rw [List.countP_append, List.countP_append, List.countP_append,
        List.countP_append, List.countP_append, List.countP_append,
        readNvmTrace_countP_zero _ _ (by intro a; rfl),
        readNvmTrace_countP_zero _ _ (by intro a; rfl),
        eraseAllCall_countP_fallback, eraseAllCall_countP_commitOrErase,
        programChunks_countP, write_nvm_region_countP]
      rcases hs : d.supportsSeeded <;> simp [hs]
    · rw [upload_bin_mismatch hE hp]
      show ((readNvmTrace d ++ (eraseAllCall d).2
          ++ (programChunks d (binChunks bytes) FLASH_START_ADDR).2).countP
            isSeededFallback) = _
      rw [List.countP_append, List.countP_append, List.countP_append, List.countP_append,
        readNvmTrace_countP_zero _ _ (by intro a; rfl),
        readNvmTrace_countP_zero _ _ (by intro a; rfl),
        eraseAllCall_countP_fallback, eraseAllCall_countP_commitOrErase,
        programChunks_countP]
      rcases hs : d.supportsSeeded <;> simp [hs]
  · rw [upload_bin_eraseFailed d bytes hE]
    show ((readNvmTrace d ++ (eraseAllCall d).2).countP isSeededFallback) = _
    rw [List.countP_append, List.countP_append,
      readNvmTrace_countP_zero _ _ (by intro a; rfl),
      readNvmTrace_countP_zero _ _ (by intro a; rfl),
      eraseAllCall_countP_fallback, eraseAllCall_countP_commitOrErase]
    rcases hs : d.supportsSeeded <;> simp [hs]

/-! ### Claim C7 -/

/-- C7 counterexample: two devices that differ only in the flash word at
`FLASH_START_ADDR` — against the all-zero image, the verifying compare
succeeds on the first and fails on the second — yet the two forced
(`--force`) `spawn` runs have identical outcomes and identical printed
output.  The verify verdict is bound and discarded by the source
(line 255), so a post-flash mismatch is neither reported to the user nor
observable in the process outcome, refuting the claim that it is. -/
theorem c7_counterexample :
    (compare_bin_w_device dV1 bin16).1 = true ∧
    (compare_bin_w_device dV2 bin16).1 = false ∧
    (spawn dV1 (BinArg.file bin16) true false).outcome
        = (spawn dV2 (BinArg.file bin16) true false).outcome ∧
    (spawn dV1 (BinArg.file bin16) true false).msgs
        = (spawn dV2 (BinArg.file bin16) true false).msgs := by
  have hff1 : (nvmBytes dV1).all (fun b => b = 255) = true := by
    apply nvmBytes_all_ff
    intro a ha
    show (if a < NVM_START_ADDR then 0 else 4294967295) = 4294967295
    rw [if_neg (by omega)]
  have hff2 : (nvmBytes dV2).all (fun b => b = 255) = true := by
    apply nvmBytes_all_ff
    intro a ha
    have hne : a ≠ FLASH_START_ADDR := by
      have : FLASH_START_ADDR < NVM_START_ADDR := by decide
      omega
    show (if a = FLASH_START_ADDR then 7
        else if a < NVM_START_ADDR then 0 else 4294967295) = 4294967295
    rw [if_neg hne, if_neg (by omega)]
  have hp1 : (programChunks dV1 (binChunks bin16) FLASH_START_ADDR).1
      = ProgResult.done := by decide
  have hp2 : (programChunks dV2 (binChunks bin16) FLASH_START_ADDR).1
      = ProgResult.done := by decide
  have hu1 := upload_bin_completed dV1 bin16 rfl hp1
  have hu2 := upload_bin_completed dV2 bin16 rfl hp2
  have hm1 : (upload_bin dV1 bin16).msgs
      = [Msg.backingUp, Msg.nvmEmpty, Msg.erasing, Msg.eraseDone] := by
    rw [hu1]
    show readNvmMsgs dV1 ++ [Msg.erasing, Msg.eraseDone]
        ++ writeNvmMsgs (read_nvm_region dV1) = _
    rw [readNvmMsgs_ff hff1, read_nvm_region_none hff1]
    rfl
  have hm2 : (upload_bin dV2 bin16).msgs
      = [Msg.backingUp, Msg.nvmEmpty, Msg.erasing, Msg.eraseDone] := by
    rw [hu2]
    show readNvmMsgs dV2 ++ [Msg.erasing, Msg.eraseDone]
        ++ writeNvmMsgs (read_nvm_region dV2) = _
    rw [readNvmMsgs_ff hff2, read_nvm_region_none hff2]
    rfl
  have hsp1 := spawn_flash_completed dV1 bin16 true false (by simp) (by rw [hu1])
  have hsp2 := spawn_flash_completed dV2 bin16 true false (by simp) (by rw [hu2])
  refine ⟨by decide, by decide, ?_, ?_⟩
  · rw [hsp1, hsp2]
  · rw [hsp1, hsp2]
    show (if true = false then [Msg.firmwareDiffers] else []) ++ (upload_bin dV1 bin16).msgs
        ++ (if false = false then [Msg.resetting] else []) = _
    rw [hm1, hm2]

/-- C7 (amended): after a successful program-and-restore the comparator
is re-run against the freshly written image (its read trace is part of
the session trace) and a mismatch there is non-fatal — the flow is
unaffected, the reset still happens — but the verify verdict is
discarded: the spawn outcome and the printed messages are computed
without reference to it, so the mismatch is NOT reported or otherwise
observable in the output. -/
theorem c7_verify_rerun_result_discarded (d : Device) (bytes : List Nat)
    (noReset : Bool)
    (hU : (upload_bin d bytes).outcome = UploadOutcome.completed) :
    (spawn d (BinArg.file bytes) true noReset).outcome
        = SpawnOutcome.flashed UploadOutcome.completed ∧
    (spawn d (BinArg.file bytes) true noReset).events
      = [Event.initRouter, Event.createDevice] ++ (upload_bin d bytes).events
          ++ (compare_bin_w_device d bytes).2
          ++ (if noReset = false then [Event.reset] else []) ++ [Event.destroyRouter] ∧
    (spawn d (BinArg.file bytes) true noReset).msgs
      = (upload_bin d bytes).msgs ++ (if noReset = false then [Msg.resetting] else []) := by
  have hsp := spawn_flash_completed d bytes true noReset (by simp) hU
  rw [hsp]
  refine ⟨rfl, by simp, by simp⟩

/-- Witness for C7's amended theorem at the device whose verify compare
mismatches (`dV2`): the verify trace is present, the reset happens, and
neither outcome nor messages mention the mismatch. -/
theorem c7_witness :
    (spawn dV2 (BinArg.file bin16) true false).outcome
        = SpawnOutcome.flashed UploadOutcome.completed ∧
    (spawn dV2 (BinArg.file bin16) true false).events
      = [Event.initRouter, Event.createDevice] ++ (upload_bin dV2 bin16).events
          ++ (compare_bin_w_device dV2 bin16).2
          ++ (if false = false then [Event.reset] else []) ++ [Event.destroyRouter] ∧
    (spawn dV2 (BinArg.file bin16) true false).msgs
      = (upload_bin dV2 bin16).msgs ++ (if false = false then [Msg.resetting] else []) :=
  c7_verify_rerun_result_discarded dV2 bin16 false
    (by rw [upload_bin_completed dV2 bin16 rfl (by decide)])

/-! ### Claim C8 -/

theorem sliceWord_take16 {l : List Nat} {i : Nat} (hi : i < 4) :
    sliceWord (l.take 16) i = sliceWord l i := by
  unfold sliceWord
  rw [List.drop_take, List.take_take, Nat.min_eq_left (by omega)]

theorem sliceWord_drop16 (l : List Nat) (j : Nat) :
    sliceWord (l.drop 16) j = sliceWord l (j + 4) := by
  unfold sliceWord
  rw [List.drop_drop]
  have h4 : (j + 4) * 4 = 16 + j * 4 := by ring
  rw [h4]

theorem compareWords_true_iff (d : Device) (chunk : List Nat) (addr : Nat) :
    ∀ is, ((compareWords d chunk addr is).1 = true
      ↔ ∀ i ∈ is, sliceWord chunk i = d.readFlash (addr + i * 4)) := by
  intro is
  induction is with
  | nil => simp [compareWords]
  | cons i rest ih =>
    unfold compareWords
    by_cases hm : sliceWord chunk i = d.readFlash (addr + i * 4)
    · rw [if_pos hm]
      simp [hm, ih]
    · rw [if_neg hm]
      simp [hm]

theorem compareChunksLoop_true_iff (d : Device) :
    ∀ k (bytes : List Nat) addr, bytes.length = 16 * k →
      ((compareChunksLoop d (binChunks bytes) addr).1 = true
        ↔ ∀ j, 4 * j + 4 ≤ bytes.length →
            sliceWord bytes j = d.readFlash (addr + 4 * j)) := by
  intro k
  induction k with
  | zero =>
    intro bytes addr hlen
    have hnil : bytes = [] := List.length_eq_zero.mp (by omega)
    subst hnil
    rw [binChunks_nil]
    simp only [compareChunksLoop, List.length_nil]
    constructor
    · intro _ j hj
      omega
    · intro _
      trivial
  | succ n ih =>
    intro bytes addr hlen
    have hne : bytes ≠ [] := by
      intro h
      subst h
      simp only [List.length_nil] at hlen
      omega
    have hld : (bytes.drop 16).length = 16 * n := by
      simp only [List.length_drop]
      omega
    rw [binChunks_cons hne]
    have hrec := ih (bytes.drop 16) (addr + 16) hld
    by_cases hcw : (compareWords d (bytes.take 16) addr (List.range BIN_CHUNK_SIZE)).1 = true
    · have hmatch : ∀ i, i < 4 → sliceWord bytes i = d.readFlash (addr + 4 * i) := by
        intro i hi
        have h1 := (compareWords_true_iff d (bytes.take 16) addr
          (List.range BIN_CHUNK_SIZE)).mp hcw i (by simpa [BIN_CHUNK_SIZE] using hi)
        rw [sliceWord_take16 hi] at h1
        rw [Nat.mul_comm i 4] at h1
        exact h1
      unfold compareChunksLoop
      rw [if_pos hcw]
      show (compareChunksLoop d (binChunks (bytes.drop 16)) (addr + 16)).1 = true ↔ _
      rw [hrec]
      constructor
      · intro hd j hj
        by_cases hj4 : j < 4
        · exact hmatch j hj4
        · have hj16 : 4 * (j - 4) + 4 ≤ (bytes.drop 16).length := by
            simp only [List.length_drop]
            omega
          have h2 := hd (j - 4) hj16
          rw [sliceWord_drop16] at h2
          have hjeq : j - 4 + 4 = j := by omega
          rw [hjeq] at h2
          rw [h2]
          congr 1
          omega
      · intro hall j hj
        rw [sliceWord_drop16]
        have hb : 4 * (j + 4) + 4 ≤ bytes.length := by
          rw [hld] at hj
          omega
        have h2 := hall (j + 4) hb
        rw [h2]
        congr 1
        omega
    · unfold compareChunksLoop
      rw [if_neg hcw]
      constructor
      · intro h
        simp at h
      · intro hall
        exfalso
        apply hcw
        rw [compareWords_true_iff]
        intro i hii
        have hi : i < 4 := by simpa [BIN_CHUNK_SIZE] using hii
        rw [sliceWord_take16 hi]
        have hb : 4 * i + 4 ≤ bytes.length := by omega
        have h2 := hall i hb
        rw [h2]
        congr 1
        omega

/-- C8 counterexample: a 4-byte image (single word, value 3) against a
device whose flash word at `FLASH_START_ADDR` is 3 and 9 elsewhere:
every 32-bit little-endian word of the image equals the device flash word
at its corresponding address, yet `compare` returns `false` (it also
compares the fabricated zero words of the padded final chunk). -/
theorem c8_counterexample :
    wordFromBytesLE cmpBytes = dCmp.readFlash FLASH_START_ADDR ∧
    (compare_bin_w_device dCmp cmpBytes).1 = false :=
  ⟨by decide, by decide⟩

/-- C8 (amended): for every image whose byte length is a multiple of 16,
`compare` returns `true` precisely when every 32-bit little-endian word
of the image equals the device flash word at the corresponding address —
in particular it returns `false` whenever the image differs from device
flash in at least one chunk — and its trace consists of bus reads only
(no side effects).  (For images with a ragged tail the fabricated padded
words are also compared; see the counterexample.) -/
theorem c8_compare_iff_words_match (d : Device) (bytes : List Nat)
    (h16 : bytes.length % 16 = 0) :
    ((compare_bin_w_device d bytes).1 = true
      ↔ ∀ j, 4 * j + 4 ≤ bytes.length →
          sliceWord bytes j = d.readFlash (FLASH_START_ADDR + 4 * j)) ∧
    (∀ e ∈ (compare_bin_w_device d bytes).2, ∃ a, e = Event.readFlash a) := by
  refine ⟨?_, compare_events_read⟩
  have hk : bytes.length = 16 * (bytes.length / 16) := by omega
  exact compareChunksLoop_true_iff d (bytes.length / 16) bytes FLASH_START_ADDR hk

/-- Witness for C8's amended theorem: the all-`0xFF` 16-byte image on the
fully erased device. -/
theorem c8_witness :
    ((compare_bin_w_device dBlank bin16FF).1 = true
      ↔ ∀ j, 4 * j + 4 ≤ bin16FF.length →
          sliceWord bin16FF j = dBlank.readFlash (FLASH_START_ADDR + 4 * j)) ∧
    (∀ e ∈ (compare_bin_w_device dBlank bin16FF).2, ∃ a, e = Event.readFlash a) :=
  c8_compare_iff_words_match dBlank bin16FF (by decide)

/-! ### Claim C9 -/

/-- C9: when the image already matches device flash (`compare` returns
`true`) and the caller has not forced an override, `spawn`
short-circuits: the outcome is the skipped flash, no flash-mutating
operation (scratch write, commit, seeded or unseeded erase, or their
rejected seeded attempts) appears anywhere in the session trace, and no
reset is performed — the device is not touched beyond bus reads. -/
theorem c9_match_skips_flash (d : Device) (bytes : List Nat) (noReset : Bool)
    (hc : (compare_bin_w_device d bytes).1 = true) :
    (spawn d (BinArg.file bytes) false noReset).outcome = SpawnOutcome.skippedFlash ∧
    (∀ e ∈ (spawn d (BinArg.file bytes) false noReset).events, isFlashMutation e = false) ∧
    Event.reset ∉ (spawn d (BinArg.file bytes) false noReset).events := by
  have hsp := spawn_skip d bytes noReset hc
  rw [hsp]
  refine ⟨rfl, ?_, ?_⟩
  · intro e he
    rcases List.mem_append.mp he with h | h
    · rcases List.mem_append.mp h with h2 | h2
      · simp only [List.mem_cons, List.mem_singleton] at h2
        rcases h2 with rfl | rfl | h2
        · rfl
        · rfl
        · simp at h2
      · rcases compare_events_read e h2 with ⟨a, rfl⟩
        rfl
    · simp only [List.mem_singleton] at h
      subst h
      rfl
  · intro hmem
    rcases List.mem_append.mp hmem with h | h
    · rcases List.mem_append.mp h with h2 | h2
      · simp at h2
      · rcases compare_events_read _ h2 with ⟨a, ha⟩
        simp at ha
    · simp at h

/-- Witness for C9 with a fully erased device and the all-`0xFF` image
that matches it. -/
theorem c9_witness :
    (spawn dBlank (BinArg.file bin16FF) false false).outcome
        = SpawnOutcome.skippedFlash ∧
    (∀ e ∈ (spawn dBlank (BinArg.file bin16FF) false false).events,
        isFlashMutation e = false) ∧
    Event.reset ∉ (spawn dBlank (BinArg.file bin16FF) false false).events :=
  c9_match_skips_flash dBlank bin16FF false (by decide)

/-! ### Claim C10 -/

theorem writeNvmChunks_commit_addr_ge {d : Device} :
    ∀ count rest addr base, base ≤ addr →
      ∀ a s, Event.commit a s ∈ writeNvmChunks d count rest addr → base ≤ a := by
  intro count
  induction count with
  | zero =>
    intro rest addr base _ a s h
    simp [writeNvmChunks] at h
  | succ n ih =>
    intro rest addr base hb a s h
    rw [writeNvmChunks_succ] at h
    by_cases hff : (rest.take 16).all (fun b => b = 255) = true
    · rw [if_pos hff] at h
      exact ih _ _ _ (by omega) a s h
    · rw [if_neg hff] at h
      rcases List.mem_append.mp h with h1 | h1
      · rcases List.mem_append.mp h1 with h2 | h2
        · rcases mem_scratchLoadTrace h2 with ⟨i, _, hi⟩
          exact absurd hi (by simp)
        · rcases mem_commitCall_snd h2 with h3 | h3
          · exact absurd h3 (by simp)
          · rw [Event.commit.injEq] at h3
            omega
      · exact ih _ _ _ (by omega) a s h1

/-- C10: for a zero-byte image, `upload_bin` still performs the full NVM
backup (the backup reads open the trace), still erases all program flash
(the erase exchange is in the trace), programs zero chunks (the
programming loop contributes no events at all), and then runs the NVM
restore; every commit in the whole session lies inside the NVM region,
so the firmware area is left erased.  No minimum-size precondition on
the image is checked before the erase is issued. -/
theorem c10_zero_byte_upload (d : Device) (hE : d.eraseStatus = 0) :
    (upload_bin d []).outcome = UploadOutcome.completed ∧
    (programChunks d (binChunks []) FLASH_START_ADDR).2 = [] ∧
    (upload_bin d []).events
      = readNvmTrace d ++ (eraseAllCall d).2 ++ write_nvm_region d (read_nvm_region d) ∧
    Event.eraseAll d.supportsSeeded ∈ (upload_bin d []).events ∧
    (∀ a s, Event.commit a s ∈ (upload_bin d []).events → NVM_START_ADDR ≤ a) := by
  have hp : (programChunks d (binChunks []) FLASH_START_ADDR).1 = ProgResult.done := rfl
  have hp2 : (programChunks d (binChunks ([] : List Nat)) FLASH_START_ADDR).2 = [] := rfl
  have hu := upload_bin_completed d [] hE hp
  have hev : (upload_bin d []).events
      = readNvmTrace d ++ (eraseAllCall d).2 ++ write_nvm_region d (read_nvm_region d) := by
    rw [hu]
    show readNvmTrace d ++ (eraseAllCall d).2
        ++ (programChunks d (binChunks []) FLASH_START_ADDR).2
        ++ write_nvm_region d (read_nvm_region d) = _
    rw [hp2]
    simp
  refine ⟨by rw [hu], hp2, hev, ?_, ?_⟩
  · rw [hev]
    rcases hs : d.supportsSeeded <;> simp [eraseAllCall_snd, hs]
  · intro a s h
    rw [hev] at h
    rcases List.mem_append.mp h with h1 | h1
    · rcases List.mem_append.mp h1 with h2 | h2
      · rcases mem_readNvmTrace h2 with ⟨a2, _, ha⟩
        exact absurd ha (by simp)
      · rcases mem_eraseAllCall_snd h2 with h3 | h3
        · exact absurd h3 (by simp)
        · exact absurd h3 (by simp)
    · cases hr : read_nvm_region d with
      | none =>
        rw [hr] at h1
        simp [write_nvm_region] at h1
      | some data =>
        rw [hr] at h1
        exact writeNvmChunks_commit_addr_ge _ _ _ _ le_rfl a s h1

/-- Witness for C10 at a device whose NVM region holds meaningful
(non-`0xFF`) data. -/
theorem c10_witness :
    (upload_bin dIdle []).outcome = UploadOutcome.completed ∧
    (programChunks dIdle (binChunks []) FLASH_START_ADDR).2 = [] ∧
    (upload_bin dIdle []).events
      = readNvmTrace dIdle ++ (eraseAllCall dIdle).2
          ++ write_nvm_region dIdle (read_nvm_region dIdle) ∧
    Event.eraseAll dIdle.supportsSeeded ∈ (upload_bin dIdle []).events ∧
    (∀ a s, Event.commit a s ∈ (upload_bin dIdle []).events → NVM_START_ADDR ≤ a) :=
  c10_zero_byte_upload dIdle rfl

end Dfu
